import Mathlib

/-!
# Note store of `SERVER/server.js`

A shallow embedding of the in-memory note service: the module-level state
(`notes`, `nextId`) becomes an explicit `Store`, every route handler becomes a
function from the store and the request data to a response and the next store.

Modelling conventions
* `new Date()` reads the wall clock.  Every evaluation of `new Date()` in the
  source is one explicit clock-reading argument (milliseconds, an `Int`) of the
  handler that performs it, in evaluation order.
* JavaScript numbers that hold ids are unbounded integers here (the counter of
  the source is a double, exact up to `2^53`).
* The request body is parsed JSON.  A body field (`title`, `content`) is `none`
  when the field is absent (`undefined` after destructuring) and `some v` when
  it is the JSON value `v`, of any JSON type: the handlers make no type check.
* A handler with an `:id` path parameter receives the value of
  `parseInt(req.params.id)`: `none` stands for `NaN`, `some k` for the integer `k`.
-/

namespace NoteServer

mutual
/-- A parsed JSON value, as `req.body` carries it in a field: `null`, a boolean,
a number (`x` is the numeric value of the parsed double), a string, an array or
an object. -/
inductive JVal where
  | null
  | bool (b : Bool)
  | num (x : Rat)
  | str (s : String)
  | arr (items : JList)
  | obj (fields : JFields)
deriving DecidableEq, Repr
/-- The elements of a JSON array. -/
inductive JList where
  | nil
  | cons (head : JVal) (tail : JList)
deriving DecidableEq, Repr
/-- The members of a JSON object. -/
inductive JFields where
  | nil
  | cons (key : String) (value : JVal) (rest : JFields)
deriving DecidableEq, Repr
end

/-- A stored note: the object literal built by `POST /note/`.  `title` and
`content` hold whatever JSON value the request carried. -/
structure Note where
  id : Nat
  title : JVal
  content : JVal
  created : Int
  changed : Int
deriving DecidableEq, Repr

/-- The module-level state: `let notes = []; let nextId = 1;`. -/
structure Store where
  notes : List Note
  nextId : Nat
deriving DecidableEq, Repr

/-- The state at process start. -/
def Store.initial : Store := { notes := [], nextId := 1 }

/-- What a handler sends: `res.json(...)` with a message object, a note or the
array of notes, or `res.send()` with no body. -/
inductive Body where
  | message (text : String)
  | note (n : Note)
  | notes (ns : List Note)
  | empty
deriving DecidableEq, Repr

/-- An HTTP response: status code and body. -/
structure Response where
  status : Nat
  body : Body
deriving DecidableEq, Repr

/-- The value is none of the falsy JSON values `null`, `false`, `0`, `""`. -/
def JVal.NotFalsy (v : JVal) : Prop :=
  v ≠ .null ∧ v ≠ .bool false ∧ v ≠ .num 0 ∧ v ≠ .str ""

/-- JavaScript truthiness (`ToBoolean`) of a body field: `undefined`, `null`,
`false`, the number `0` and the empty string are falsy; every other value,
arrays and objects included, is truthy. -/
def truthy : Option JVal → Bool
  | none => false
  | some .null => false
  | some (.bool b) => b
  | some (.num x) => !(x == 0)
  | some (.str s) => !(s == "")
  | some (.arr _) => true
  | some (.obj _) => true

/-- `StrWhiteSpaceChar` of ECMAScript: the white-space and line-terminator code
points that `parseInt` skips at the start of its argument. -/
def isStrWhiteSpace (c : Char) : Bool :=
  [0x09, 0x0A, 0x0B, 0x0C, 0x0D, 0x20, 0xA0, 0x1680, 0x2028, 0x2029, 0x202F, 0x205F,
    0x3000, 0xFEFF].contains c.toNat
  || (0x2000 ≤ c.toNat && c.toNat ≤ 0x200A)

/-- The value of a character as a digit (`0-9`, `a-z`, `A-Z`), if it is one. -/
def digitValue (c : Char) : Option Nat :=
  if '0' ≤ c ∧ c ≤ '9' then some (c.toNat - '0'.toNat)
  else if 'a' ≤ c ∧ c ≤ 'z' then some (c.toNat - 'a'.toNat + 10)
  else if 'A' ≤ c ∧ c ≤ 'Z' then some (c.toNat - 'A'.toNat + 10)
  else none

/-- The character is a digit of the given radix. -/
def isRadixDigit (radix : Nat) (c : Char) : Bool :=
  match digitValue c with
  | some d => d < radix
  | none => false

/-- `parseInt(string)` with no radix argument: skip leading white space, take
an optional sign, switch to radix 16 after a `0x` or `0X` prefix, read the
longest run of digits and ignore whatever follows; `none` (for `NaN`) when that
run is empty. -/
def parseInt (input : String) : Option Int :=
  let s := input.toList.dropWhile isStrWhiteSpace
  let negative := s.head? == some '-'
  let s := if s.head? == some '-' || s.head? == some '+' then s.tail else s
  let hex := s.take 2 == ['0', 'x'] || s.take 2 == ['0', 'X']
  let radix := if hex then 16 else 10
  let s := if hex then s.drop 2 else s
  let z := s.takeWhile (isRadixDigit radix)
  if z.isEmpty then none
  else
    let mathInt : Nat := z.foldl (fun acc c => acc * radix + (digitValue c).getD 0) 0
    some (if negative then -(mathInt : Int) else (mathInt : Int))

/-- The callback `n => n.id === parseInt(req.params.id)`: strict equality of a
note id with the parsed path parameter; nothing is equal to `NaN`. -/
def idMatches (id : Option Int) (n : Note) : Bool :=
  match id with
  | none => false
  | some k => (n.id : Int) == k

/-- The callback `n => n.title === req.params.title`: strict equality of the
stored title with the path parameter, which is a string. -/
def titleMatches (title : String) (n : Note) : Bool :=
  n.title == JVal.str title

/-- `Array.prototype.findIndex`: position of the first element satisfying `p`;
`none` stands for the result `-1`. -/
def findIndex (p : Note → Bool) : List Note → Option Nat
  | [] => none
  | n :: ns => if p n then some 0 else (findIndex p ns).map (· + 1)

/-- In-place mutation of the object returned by `notes.find(p)`: the first
element satisfying `p` is replaced by its image under `f`. -/
def modifyFirst (p : Note → Bool) (f : Note → Note) : List Note → List Note
  | [] => []
  | n :: ns => if p n then f n :: ns else n :: modifyFirst p f ns

/-- `GET /notes`. -/
def listNotes (s : Store) : Response :=
  if s.notes.length = 0 then ⟨404, .message "No notes found"⟩
  else ⟨200, .notes s.notes⟩

/-- `GET /note/:id`. -/
def getNote (s : Store) (id : Option Int) : Response :=
  match s.notes.find? (idMatches id) with
  | none => ⟨404, .message "Note not found"⟩
  | some note => ⟨200, .note note⟩

/-- `GET /note/read/:title`. -/
def readNote (s : Store) (title : String) : Response :=
  match s.notes.find? (titleMatches title) with
  | none => ⟨404, .message "Note not found"⟩
  | some note => ⟨200, .note note⟩

/-- `POST /note/`.  `t1` and `t2` are the readings of the two `new Date()`
expressions of the object literal, in that order. -/
def postNote (s : Store) (title content : Option JVal) (t1 t2 : Int) :
    Response × Store :=
  if !truthy title || !truthy content then
    (⟨409, .message "Title and content are required"⟩, s)
  else
    let newNote : Note :=
      { id := s.nextId
        title := title.getD .null
        content := content.getD .null
        created := t1
        changed := t2 }
    (⟨201, .note newNote⟩, { notes := s.notes ++ [newNote], nextId := s.nextId + 1 })

/-- `DELETE /note/:id`. -/
def deleteNote (s : Store) (id : Option Int) : Response × Store :=
  match findIndex (idMatches id) s.notes with
  | none => (⟨409, .message "Note not found"⟩, s)
  | some noteIndex => (⟨204, .empty⟩, { s with notes := s.notes.eraseIdx noteIndex })

/-- The three assignments of `PUT /note/:id` applied to the found note. -/
def applyPut (title content : Option JVal) (now : Int) (note : Note) : Note :=
  let note := if truthy title then { note with title := title.getD .null } else note
  let note := if truthy content then { note with content := content.getD .null } else note
  { note with changed := now }

/-- `PUT /note/:id`.  `now` is the reading of its `new Date()`. -/
def putNote (s : Store) (id : Option Int) (title content : Option JVal) (now : Int) :
    Response × Store :=
  match s.notes.find? (idMatches id) with
  | none => (⟨409, .message "Note not found"⟩, s)
  | some _ =>
    (⟨204, .empty⟩,
      { s with notes := modifyFirst (idMatches id) (applyPut title content now) s.notes })

/-- One request to the service, with the clock readings it will observe. -/
inductive Request where
  | listNotes
  | getNote (id : Option Int)
  | readNote (title : String)
  | postNote (title content : Option JVal) (t1 t2 : Int)
  | deleteNote (id : Option Int)
  | putNote (id : Option Int) (title content : Option JVal) (now : Int)
deriving DecidableEq, Repr

/-- Dispatch of one request to its handler. -/
def step (s : Store) : Request → Response × Store
  | .listNotes => (listNotes s, s)
  | .getNote id => (getNote s id, s)
  | .readNote title => (readNote s title, s)
  | .postNote title content t1 t2 => postNote s title content t1 t2
  | .deleteNote id => deleteNote s id
  | .putNote id title content now => putNote s id title content now

/-- The store after serving the requests in order. -/
def run (s : Store) : List Request → Store
  | [] => s
  | r :: rs => run (step s r).2 rs

/-- The requests served in order, each paired with its response. -/
def trace (s : Store) : List Request → List (Request × Response)
  | [] => []
  | r :: rs => (r, (step s r).1) :: trace (step s r).2 rs

/-- The request is a `POST /note/`. -/
def Request.isPost : Request → Bool
  | .postNote _ _ _ _ => true
  | _ => false

/-- The request is one of the three `GET` routes. -/
def Request.isRead : Request → Bool
  | .listNotes => true
  | .getNote _ => true
  | .readNote _ => true
  | _ => false

/-- The request is a `POST /note/` whose title and content are both truthy
(for strings: non-empty). -/
def Request.isValidPost : Request → Bool
  | .postNote title content _ _ => truthy title && truthy content
  | _ => false

/-- The id of the note carried by a `201` response, if the response is one. -/
def Response.createdId (r : Response) : Option Nat :=
  match r.status, r.body with
  | 201, .note n => some n.id
  | _, _ => none

/-- The ids handed out by the successful `POST /note/` requests of a trace, in
order. -/
def createdIds (tr : List (Request × Response)) : List Nat :=
  tr.filterMap (fun x => if x.1.isPost then x.2.createdId else none)

/-- The responses given to the `POST /note/` requests of a trace, in order. -/
def postResponses (tr : List (Request × Response)) : List Response :=
  (tr.filter (fun x => x.1.isPost)).map (fun x => x.2)

/-- The list of stored ids, in store order. -/
def Store.ids (s : Store) : List Nat :=
  s.notes.map Note.id

/-- Stored ids increase along the collection and stay below the counter. -/
def Store.WF (s : Store) : Prop :=
  s.ids.Pairwise (· < ·) ∧ ∀ i ∈ s.ids, i < s.nextId

/-- The clock readings one request takes when served in store `s`, in order:
two for a `POST /note/` that passes its guard, one for a `PUT /note/:id` that
finds its note, none otherwise (the handler returns before any `new Date()`). -/
def readingsTaken (s : Store) : Request → List Int
  | .postNote title content t1 t2 =>
    if !truthy title || !truthy content then [] else [t1, t2]
  | .putNote id _ _ now =>
    match s.notes.find? (idMatches id) with
    | none => []
    | some _ => [now]
  | _ => []

/-- All clock readings taken while the requests are served in order from `s`. -/
def clockLog (s : Store) : List Request → List Int
  | [] => []
  | r :: rs => readingsTaken s r ++ clockLog (step s r).2 rs

/-- A decimal integer literal: an optional sign, then one or more decimal
digits, and nothing else. -/
def isDecimalLiteral (p : String) : Bool :=
  let s := p.toList
  let s := if s.head? == some '-' || s.head? == some '+' then s.tail else s
  !s.isEmpty && s.all Char.isDigit

/-! ## Auxiliary facts about the list primitives -/

theorem applyPut_id (title content : Option JVal) (now : Int) (n : Note) :
    (applyPut title content now n).id = n.id := by
  unfold applyPut
  split_ifs <;> rfl

theorem applyPut_changed (title content : Option JVal) (now : Int) (n : Note) :
    (applyPut title content now n).changed = now := by
  unfold applyPut
  split_ifs <;> rfl

theorem map_id_modifyFirst (p : Note → Bool) (f : Note → Note)
    (hf : ∀ n, (f n).id = n.id) (l : List Note) :
    (modifyFirst p f l).map Note.id = l.map Note.id := by
  induction l with
  | nil => rfl
  | cons n ns ih =>
    unfold modifyFirst
    split_ifs
    · simp [hf]
    · simp [ih]

theorem find?_modifyFirst (p : Note → Bool) (f : Note → Note)
    (hf : ∀ n, p (f n) = p n) (l : List Note) :
    (modifyFirst p f l).find? p = (l.find? p).map f := by
  induction l with
  | nil => rfl
  | cons n ns ih =>
    unfold modifyFirst
    by_cases h : p n
    · simp [h, hf]
    · simp [h, ih]

theorem idMatches_applyPut (id : Option Int) (title content : Option JVal) (now : Int)
    (n : Note) : idMatches id (applyPut title content now n) = idMatches id n := by
  unfold idMatches
  rw [applyPut_id]

theorem idMatches_some_iff (i : Nat) (n : Note) :
    idMatches (some (i : Int)) n = true ↔ n.id = i := by
  simp [idMatches]

theorem findIndex_eq_none (p : Note → Bool) (l : List Note) :
    findIndex p l = none ↔ ∀ n ∈ l, p n = false := by
  induction l with
  | nil => simp [findIndex]
  | cons n ns ih =>
    unfold findIndex
    by_cases h : p n
    · simp [h]
    · simp [h, ih]

theorem findIndex_isSome_of_mem (p : Note → Bool) (l : List Note) (n : Note)
    (hn : n ∈ l) (hp : p n = true) : ∃ k, findIndex p l = some k := by
  cases h : findIndex p l with
  | some k => exact ⟨k, rfl⟩
  | none =>
    have := (findIndex_eq_none p l).1 h n hn
    simp [hp] at this

theorem eraseIdx_findIndex_no_match (i : Nat) (l : List Note) (k : Nat)
    (hnd : (l.map Note.id).Nodup) (hk : findIndex (idMatches (some (i : Int))) l = some k) :
    ∀ n ∈ l.eraseIdx k, n.id ≠ i := by
  induction l generalizing k with
  | nil => simp [findIndex] at hk
  | cons m ms ih =>
    unfold findIndex at hk
    rw [List.map_cons, List.nodup_cons] at hnd
    by_cases h : idMatches (some (i : Int)) m = true
    · simp only [h, if_true, Option.some.injEq] at hk
      subst hk
      have hm : m.id = i := (idMatches_some_iff i m).1 h
      intro n hn hni
      simp only [List.eraseIdx_cons_zero] at hn
      apply hnd.1
      rw [hm, ← hni]
      exact List.mem_map_of_mem _ hn
    · simp only [h, Bool.false_eq_true, if_false] at hk
      cases hj : findIndex (idMatches (some (i : Int))) ms with
      | none => simp [hj] at hk
      | some j =>
        simp only [hj, Option.map_some', Option.some.injEq] at hk
        subst hk
        intro n hn
        simp only [List.eraseIdx_cons_succ, List.mem_cons] at hn
        rcases hn with rfl | hn
        · intro hni
          exact h ((idMatches_some_iff i n).2 hni)
        · exact ih j hnd.2 hj n hn

/-! ## The store invariant -/

theorem Store.initial_WF : Store.initial.WF := by
  simp [Store.WF, Store.ids, Store.initial]

theorem postNote_WF (s : Store) (title content : Option JVal) (t1 t2 : Int)
    (h : s.WF) : (postNote s title content t1 t2).2.WF := by
  unfold postNote
  split_ifs
  · exact h
  · obtain ⟨h1, h2⟩ := h
    simp only [Store.WF, Store.ids] at h1 h2 ⊢
    refine ⟨?_, ?_⟩
    · rw [List.map_append, List.pairwise_append]
      refine ⟨h1, by simp, ?_⟩
      intro a ha b hb
      simp only [List.map_cons, List.map_nil, List.mem_singleton] at hb
      subst hb
      exact h2 a ha
    · intro i hi
      rw [List.map_append, List.mem_append] at hi
      rcases hi with hi | hi
      · exact Nat.lt_succ_of_lt (h2 i hi)
      · simp only [List.map_cons, List.map_nil, List.mem_singleton] at hi
        subst hi
        exact Nat.lt_succ_self _

theorem deleteNote_WF (s : Store) (id : Option Int) (h : s.WF) :
    (deleteNote s id).2.WF := by
  unfold deleteNote
  split
  · exact h
  · rename_i k _
    obtain ⟨h1, h2⟩ := h
    simp only [Store.WF, Store.ids] at h1 h2 ⊢
    have hsub : ((s.notes.eraseIdx k).map Note.id).Sublist (s.notes.map Note.id) :=
      (List.eraseIdx_sublist s.notes k).map Note.id
    exact ⟨h1.sublist hsub, fun i hi => h2 i (hsub.subset hi)⟩

theorem putNote_WF (s : Store) (id : Option Int) (title content : Option JVal)
    (now : Int) (h : s.WF) : (putNote s id title content now).2.WF := by
  unfold putNote
  split
  · exact h
  · simp only [Store.WF, Store.ids] at h ⊢
    rw [map_id_modifyFirst _ _ (applyPut_id title content now)]
    exact h

theorem step_WF (s : Store) (r : Request) (h : s.WF) : (step s r).2.WF := by
  cases r with
  | listNotes => exact h
  | getNote id => exact h
  | readNote title => exact h
  | postNote title content t1 t2 => exact postNote_WF s title content t1 t2 h
  | deleteNote id => exact deleteNote_WF s id h
  | putNote id title content now => exact putNote_WF s id title content now h

theorem run_WF (s : Store) (rs : List Request) (h : s.WF) : (run s rs).WF := by
  induction rs generalizing s with
  | nil => exact h
  | cons r rs ih => exact ih _ (step_WF s r h)

theorem WF_nodup (s : Store) (h : s.WF) : s.ids.Nodup :=
  h.1.imp (fun hab => Nat.ne_of_lt hab)

/-! ## Identifier assignment -/

theorem step_read (s : Store) (r : Request) (h : r.isRead = true) : (step s r).2 = s := by
  cases r <;> simp_all [Request.isRead, step]

theorem step_validPost (s : Store) (r : Request) (h : r.isValidPost = true) :
    (step s r).1.createdId = some s.nextId ∧ (step s r).2.nextId = s.nextId + 1 := by
  cases r with
  | postNote title content t1 t2 =>
    simp only [Request.isValidPost, Bool.and_eq_true] at h
    simp [step, postNote, h.1, h.2, Response.createdId]
  | _ => simp [Request.isValidPost] at h

theorem step_createdId (s : Store) (r : Request) :
    ((if r.isPost then (step s r).1.createdId else none) = none
        ∧ (step s r).2.nextId = s.nextId)
    ∨ ((if r.isPost then (step s r).1.createdId else none) = some s.nextId
        ∧ (step s r).2.nextId = s.nextId + 1) := by
  cases r with
  | postNote title content t1 t2 =>
    by_cases h : (!truthy title || !truthy content) = true
    · left
      simp [step, postNote, h, Response.createdId, Request.isPost]
    · right
      simp [step, postNote, h, Response.createdId, Request.isPost]
  | deleteNote id =>
    left
    simp only [Request.isPost, step, deleteNote, Bool.false_eq_true, if_false, true_and]
    cases findIndex (idMatches id) s.notes <;> rfl
  | putNote id title content now =>
    left
    simp only [Request.isPost, step, putNote, Bool.false_eq_true, if_false, true_and]
    cases List.find? (idMatches id) s.notes <;> rfl
  | _ => left; simp [Request.isPost, step]

theorem postResponses_of_valid (s : Store) (rs : List Request)
    (h : ∀ r ∈ rs, r.isValidPost = true ∨ r.isRead = true) :
    (postResponses (trace s rs)).map Response.createdId
      = (List.range' s.nextId (rs.countP Request.isPost)).map some := by
  induction rs generalizing s with
  | nil => rfl
  | cons r rs ih =>
    have ih := fun s => ih s (fun r hr => h r (List.mem_cons_of_mem _ hr))
    rcases h r (List.mem_cons_self _ _) with hv | hr
    · have hp : r.isPost = true := by
        cases r <;> simp_all [Request.isValidPost, Request.isPost]
      obtain ⟨h1, h2⟩ := step_validPost s r hv
      simp only [trace, postResponses, hp, List.filter_cons_of_pos, List.map_cons,
        List.countP_cons_of_pos, List.range'_succ, h1]
      have := ih (step s r).2
      simp only [postResponses, h2] at this
      rw [this]
    · have hp : r.isPost = false := by
        cases r <;> simp_all [Request.isRead, Request.isPost]
      have h2 := step_read s r hr
      simp only [trace, postResponses, hp, Bool.false_eq_true, not_false_eq_true,
        List.filter_cons_of_neg, List.countP_cons_of_neg, h2]
      exact ih s

theorem createdIds_eq_range (s : Store) (rs : List Request) :
    createdIds (trace s rs) = List.range' s.nextId (createdIds (trace s rs)).length := by
  induction rs generalizing s with
  | nil => rfl
  | cons r rs ih =>
    have ih := ih (step s r).2
    simp only [createdIds] at ih ⊢
    rcases step_createdId s r with ⟨h1, h2⟩ | ⟨h1, h2⟩
    · simp only [trace, List.filterMap_cons, h1]
      rw [h2] at ih
      exact ih
    · simp only [trace, List.filterMap_cons, h1, List.length_cons, List.range'_succ]
      rw [h2] at ih
      rw [← ih]

/-- C1: from the initial store, when every request is a `POST /note/` with
truthy title and content (non-empty, when strings) or one of the three `GET`
routes, the responses to
the `POST` requests, in order, carry the ids `1, 2, ..., k` where `k` is the
number of `POST` requests: the k-th create returns id `k`. -/
theorem create_ids_count_from_one (rs : List Request)
    (h : ∀ r ∈ rs, r.isValidPost = true ∨ r.isRead = true) :
    (postResponses (trace Store.initial rs)).map Response.createdId
      = (List.range' 1 (rs.countP Request.isPost)).map some :=
  postResponses_of_valid Store.initial rs h

/-- Witness for C1: two creates with reads in between return ids 1 and 2. -/
theorem create_ids_count_from_one_witness :
    (postResponses (trace Store.initial
        [.listNotes, .postNote (some (.str "a")) (some (.str "b")) 10 10, .getNote (some 1),
         .readNote "a", .postNote (some (.str "c")) (some (.str "d")) 11 12])).map Response.createdId
      = [some 1, some 2] :=
  create_ids_count_from_one _ (by decide)

/-- C2: in every store reached from the initial one by any requests, no two
stored notes have the same id. -/
theorem reachable_ids_nodup (rs : List Request) :
    ((run Store.initial rs).notes.map Note.id).Nodup :=
  WF_nodup _ (run_WF _ rs Store.initial_WF)

/-- C9: in every run from the initial store, the ids returned by the successful
`POST /note/` requests are, in order of the requests, strictly increasing; a
later create never returns an id returned before, deleted or not. -/
theorem created_ids_strictly_increasing (rs : List Request) :
    (createdIds (trace Store.initial rs)).Pairwise (· < ·) := by
  rw [createdIds_eq_range]
  exact List.pairwise_lt_range' _ _

/-! ## Lookup by id, create, update, delete -/

theorem getNote_eq_ok_iff (s : Store) (id : Option Int) (n : Note) :
    getNote s id = ⟨200, .note n⟩ ↔ s.notes.find? (idMatches id) = some n := by
  unfold getNote
  cases h : s.notes.find? (idMatches id) with
  | none => simp
  | some m => simp

theorem getNote_eq_miss_iff (s : Store) (id : Option Int) :
    getNote s id = ⟨404, .message "Note not found"⟩ ↔ s.notes.find? (idMatches id) = none := by
  unfold getNote
  cases h : s.notes.find? (idMatches id) with
  | none => simp
  | some m => simp

theorem find?_nextId_of_WF (s : Store) (h : s.WF) :
    s.notes.find? (idMatches (some (s.nextId : Int))) = none := by
  rw [List.find?_eq_none]
  intro n hn hm
  have hlt : n.id < s.nextId := h.2 n.id (List.mem_map_of_mem _ hn)
  have := (idMatches_some_iff s.nextId n).1 hm
  omega

theorem putNote_of_found (s : Store) (id : Option Int) (title content : Option JVal)
    (now : Int) (n : Note) (h : s.notes.find? (idMatches id) = some n) :
    (putNote s id title content now).1 = ⟨204, .empty⟩
      ∧ getNote (putNote s id title content now).2 id
          = ⟨200, .note (applyPut title content now n)⟩ := by
  unfold putNote
  rw [h]
  refine ⟨rfl, ?_⟩
  rw [getNote_eq_ok_iff]
  simp only
  rw [find?_modifyFirst _ _ (idMatches_applyPut id title content now), h]
  rfl

theorem postNote_of_nonempty (s : Store) (title content : String) (t1 t2 : Int)
    (ht : title ≠ "") (hc : content ≠ "") :
    postNote s (some (.str title)) (some (.str content)) t1 t2
      = (⟨201, .note ⟨s.nextId, .str title, .str content, t1, t2⟩⟩,
          { notes := s.notes ++ [⟨s.nextId, .str title, .str content, t1, t2⟩],
            nextId := s.nextId + 1 }) := by
  simp [postNote, truthy, ht, hc]

theorem idMatches_iff (id : Option Int) (n : Note) :
    idMatches id n = true ↔ id = some (n.id : Int) := by
  cases id with
  | none => simp [idMatches]
  | some k =>
    simp only [idMatches, beq_iff_eq, Option.some.injEq]
    exact eq_comm

theorem truthy_eq_false_iff (v : Option JVal) :
    truthy v = false
      ↔ (v = none ∨ v = some .null ∨ v = some (.bool false)
          ∨ v = some (.num 0) ∨ v = some (.str "")) := by
  rcases v with _ | x
  · simp [truthy]
  · cases x with
    | null => simp [truthy]
    | bool b => cases b <;> simp [truthy]
    | num x => simp [truthy]
    | str x => simp [truthy]
    | arr xs => simp [truthy]
    | obj fs => simp [truthy]

theorem applyPut_title_only (v : String) (now : Int) (n : Note) (hv : v ≠ "") :
    applyPut (some (.str v)) none now n = { n with title := .str v, changed := now } := by
  simp [applyPut, truthy, hv]

theorem applyPut_content_only (v : String) (now : Int) (n : Note) (hv : v ≠ "") :
    applyPut none (some (.str v)) now n = { n with content := .str v, changed := now } := by
  simp [applyPut, truthy, hv]

/-- C3 (as the code has it): in every store reached from the initial one, a
`POST /note/` with non-empty string title and content answers `201` with a note, and
`GET /note/:id` for that note's id then yields the same note; its title and
content are the arguments, `created` is the first clock reading of the handler
and `changed` the second, so the two are equal whenever the readings are. -/
theorem get_after_create (rs : List Request) (title content : String) (t1 t2 : Int)
    (ht : title ≠ "") (hc : content ≠ "") :
    ∃ n : Note,
      (postNote (run Store.initial rs) (some (.str title)) (some (.str content)) t1 t2).1
          = ⟨201, .note n⟩
      ∧ getNote
          (postNote (run Store.initial rs) (some (.str title)) (some (.str content)) t1 t2).2
          (some (n.id : Int)) = ⟨200, .note n⟩
      ∧ n.title = .str title ∧ n.content = .str content
      ∧ n.created = t1 ∧ n.changed = t2
      ∧ (t1 = t2 → n.created = n.changed) := by
  have hwf := run_WF _ rs Store.initial_WF
  refine ⟨⟨(run Store.initial rs).nextId, .str title, .str content, t1, t2⟩, ?_, ?_,
    rfl, rfl, rfl, rfl, fun h => h⟩
  · rw [postNote_of_nonempty _ _ _ _ _ ht hc]
  · rw [getNote_eq_ok_iff, postNote_of_nonempty _ _ _ _ _ ht hc]
    simp only [List.find?_append, find?_nextId_of_WF _ hwf, Option.none_or]
    simp [idMatches]

/-- Witness for C3: create after one earlier create and a delete. -/
theorem get_after_create_witness :
    ∃ n : Note,
      (postNote (run Store.initial [.postNote (some (.str "x")) (some (.str "y")) 1 1,
          .deleteNote (some 1)]) (some (.str "a")) (some (.str "b")) 7 7).1 = ⟨201, .note n⟩
      ∧ getNote
          (postNote (run Store.initial [.postNote (some (.str "x")) (some (.str "y")) 1 1,
            .deleteNote (some 1)]) (some (.str "a")) (some (.str "b")) 7 7).2
          (some (n.id : Int)) = ⟨200, .note n⟩
      ∧ n.title = .str "a" ∧ n.content = .str "b"
      ∧ n.created = 7 ∧ n.changed = 7
      ∧ ((7 : Int) = 7 → n.created = n.changed) :=
  get_after_create _ "a" "b" 7 7 (by decide) (by decide)

/-- Counterexample to C3 as stated: when the clock advances between the two
`new Date()` expressions of `POST /note/`, the created note, as returned by
`GET /note/:id`, has `created` different from `changed`. -/
theorem create_created_ne_changed :
    ∃ n : Note,
      (postNote Store.initial (some (.str "a")) (some (.str "b")) 0 1).1 = ⟨201, .note n⟩
      ∧ getNote (postNote Store.initial (some (.str "a")) (some (.str "b")) 0 1).2
          (some (n.id : Int)) = ⟨200, .note n⟩
      ∧ n.title = .str "a" ∧ n.content = .str "b"
      ∧ n.created ≠ n.changed :=
  ⟨⟨1, .str "a", .str "b", 0, 1⟩, by decide, by decide, rfl, rfl, by decide⟩

/-- C4 (as the code has it): `POST /note/` answers `409` exactly when the title
or the content is falsy in JavaScript, that is absent, `null`, `false`, the
number `0` or the empty string; and then the store (collection and counter) is
the one it was given. -/
theorem create_invalid_iff (s : Store) (title content : Option JVal) (t1 t2 : Int) :
    ((postNote s title content t1 t2).1.status = 409
        ↔ ((title = none ∨ title = some .null ∨ title = some (.bool false)
              ∨ title = some (.num 0) ∨ title = some (.str ""))
            ∨ (content = none ∨ content = some .null ∨ content = some (.bool false)
              ∨ content = some (.num 0) ∨ content = some (.str ""))))
    ∧ ((postNote s title content t1 t2).1.status = 409
        → (postNote s title content t1 t2).1
            = ⟨409, .message "Title and content are required"⟩
          ∧ (postNote s title content t1 t2).2 = s) := by
  have hstatus : (postNote s title content t1 t2).1.status = 409
      ↔ (truthy title = false ∨ truthy content = false) := by
    unfold postNote
    cases truthy title <;> cases truthy content <;> simp
  refine ⟨?_, ?_⟩
  · rw [hstatus, truthy_eq_false_iff, truthy_eq_false_iff]
  · intro h
    rcases hstatus.1 h with h1 | h1 <;> simp [postNote, h1]

/-- Counterexample to C4 as stated: a title that is supplied and is the number
`0` (neither missing nor the empty string) is rejected with `409`, and the
empty array and the empty object are accepted with `201`. -/
theorem create_rejects_zero_title :
    postNote Store.initial (some (.num 0)) (some (.str "x")) 0 0
        = (⟨409, .message "Title and content are required"⟩, Store.initial)
    ∧ (some (JVal.num 0) ≠ none ∧ some (JVal.num 0) ≠ some (.str ""))
    ∧ (some (JVal.str "x") ≠ none ∧ some (JVal.str "x") ≠ some (.str ""))
    ∧ (postNote Store.initial (some (.arr .nil)) (some (.obj .nil)) 0 0).1.status = 201 := by
  decide

/-- C5 (as the code has it): when `GET /note/:id` yields the note `n` for id `i`
and `v` is a non-empty string, after `PUT /note/:id` with title `v` and no
content the note of id `i` is `n` with title `v` (content unchanged), and after
`PUT /note/:id` with content `v` and no title it is `n` with content `v` (title
unchanged); in both `changed` is the clock reading. -/
theorem update_replaces_supplied_field (s : Store) (i : Nat) (n : Note) (v : String)
    (now : Int) (hget : getNote s (some (i : Int)) = ⟨200, .note n⟩) (hv : v ≠ "") :
    getNote (putNote s (some (i : Int)) (some (.str v)) none now).2 (some (i : Int))
        = ⟨200, .note { n with title := .str v, changed := now }⟩
    ∧ getNote (putNote s (some (i : Int)) none (some (.str v)) now).2 (some (i : Int))
        = ⟨200, .note { n with content := .str v, changed := now }⟩ := by
  rw [getNote_eq_ok_iff] at hget
  refine ⟨?_, ?_⟩
  · rw [(putNote_of_found s _ (some (.str v)) none now n hget).2,
      applyPut_title_only v now n hv]
  · rw [(putNote_of_found s _ none (some (.str v)) now n hget).2,
      applyPut_content_only v now n hv]

/-- Witness for C5: retitling and rewriting the only note of a store. -/
theorem update_replaces_supplied_field_witness :
    getNote (putNote ⟨[⟨1, .str "a", .str "b", 0, 0⟩], 2⟩ (some ((1 : Nat) : Int))
        (some (.str "t")) none 5).2 (some ((1 : Nat) : Int))
        = ⟨200, .note
            { (⟨1, .str "a", .str "b", 0, 0⟩ : Note) with title := .str "t", changed := 5 }⟩
    ∧ getNote (putNote ⟨[⟨1, .str "a", .str "b", 0, 0⟩], 2⟩ (some ((1 : Nat) : Int))
        none (some (.str "t")) 5).2 (some ((1 : Nat) : Int))
        = ⟨200, .note
            { (⟨1, .str "a", .str "b", 0, 0⟩ : Note) with content := .str "t", changed := 5 }⟩ :=
  update_replaces_supplied_field ⟨[⟨1, .str "a", .str "b", 0, 0⟩], 2⟩ 1
    ⟨1, .str "a", .str "b", 0, 0⟩ "t" 5 (by decide) (by decide)

/-- Counterexample to C5 as stated: the title value `""` is a title value, and
`PUT /note/:id` with title `""` succeeds and leaves the stored title `"a"`. -/
theorem update_empty_title_not_stored :
    getNote (run Store.initial [.postNote (some (.str "a")) (some (.str "b")) 0 0]) (some 1)
        = ⟨200, .note ⟨1, .str "a", .str "b", 0, 0⟩⟩
    ∧ (putNote (run Store.initial [.postNote (some (.str "a")) (some (.str "b")) 0 0])
        (some 1) (some (.str "")) none 5).1 = ⟨204, .empty⟩
    ∧ getNote (putNote (run Store.initial [.postNote (some (.str "a")) (some (.str "b")) 0 0])
        (some 1) (some (.str "")) none 5).2 (some 1)
        = ⟨200, .note ⟨1, .str "a", .str "b", 0, 5⟩⟩
    ∧ (⟨1, .str "a", .str "b", 0, 5⟩ : Note).title ≠ .str "" := by
  decide

/-- C6 (as the code has it): when `GET /note/:id` yields the note `n` for id `i`
and the clock reading of a `PUT /note/:id` is later than `n.changed`, the update
succeeds and the note of id `i` afterwards has a strictly greater `changed`. -/
theorem update_changed_increases (s : Store) (i : Nat) (n : Note)
    (title content : Option JVal) (now : Int)
    (hget : getNote s (some (i : Int)) = ⟨200, .note n⟩) (hclock : n.changed < now) :
    (putNote s (some (i : Int)) title content now).1 = ⟨204, .empty⟩
    ∧ ∃ m : Note,
        getNote (putNote s (some (i : Int)) title content now).2 (some (i : Int))
          = ⟨200, .note m⟩
        ∧ n.changed < m.changed := by
  rw [getNote_eq_ok_iff] at hget
  obtain ⟨h1, h2⟩ := putNote_of_found s _ title content now n hget
  refine ⟨h1, _, h2, ?_⟩
  rw [applyPut_changed]
  exact hclock

/-- Witness for C6: an update at reading 5 of a note last changed at 0. -/
theorem update_changed_increases_witness :
    (putNote ⟨[⟨1, .str "a", .str "b", 0, 0⟩], 2⟩ (some ((1 : Nat) : Int)) none none 5).1
        = ⟨204, .empty⟩
    ∧ ∃ m : Note,
        getNote (putNote ⟨[⟨1, .str "a", .str "b", 0, 0⟩], 2⟩ (some ((1 : Nat) : Int)) none none 5).2
            (some ((1 : Nat) : Int)) = ⟨200, .note m⟩
        ∧ (⟨1, .str "a", .str "b", 0, 0⟩ : Note).changed < m.changed :=
  update_changed_increases ⟨[⟨1, .str "a", .str "b", 0, 0⟩], 2⟩ 1 ⟨1, .str "a", .str "b", 0, 0⟩ none none 5
    (by decide) (by decide)

/-- Counterexample to C6 as stated: a note created at reading 5 and updated
while the clock still reads 5 keeps `changed = 5`; the update succeeds and
`changed` is not strictly greater than before. -/
theorem update_same_reading_not_greater :
    getNote (run Store.initial [.postNote (some (.str "a")) (some (.str "b")) 5 5]) (some 1)
        = ⟨200, .note ⟨1, .str "a", .str "b", 5, 5⟩⟩
    ∧ (putNote (run Store.initial [.postNote (some (.str "a")) (some (.str "b")) 5 5])
        (some 1) (some (.str "c")) none 5).1 = ⟨204, .empty⟩
    ∧ getNote (putNote (run Store.initial [.postNote (some (.str "a")) (some (.str "b")) 5 5])
        (some 1) (some (.str "c")) none 5).2 (some 1) = ⟨200, .note ⟨1, .str "c", .str "b", 5, 5⟩⟩
    ∧ ¬ ((⟨1, .str "a", .str "b", 5, 5⟩ : Note).changed < (⟨1, .str "c", .str "b", 5, 5⟩ : Note).changed) := by
  decide

/-- C7: when `GET /note/:id` yields a note for id `i`, `PUT /note/:id` with any
title and content (absent, empty, equal to the stored ones or new) answers
`204`, and the note of id `i` afterwards has `changed` equal to the clock
reading of the update. -/
theorem update_sets_changed_to_now (s : Store) (i : Nat) (n : Note)
    (title content : Option JVal) (now : Int)
    (hget : getNote s (some (i : Int)) = ⟨200, .note n⟩) :
    (putNote s (some (i : Int)) title content now).1 = ⟨204, .empty⟩
    ∧ ∃ m : Note,
        getNote (putNote s (some (i : Int)) title content now).2 (some (i : Int))
          = ⟨200, .note m⟩
        ∧ m.changed = now := by
  rw [getNote_eq_ok_iff] at hget
  obtain ⟨h1, h2⟩ := putNote_of_found s _ title content now n hget
  exact ⟨h1, _, h2, applyPut_changed title content now n⟩

/-- Witness for C7: an update that supplies neither field. -/
theorem update_sets_changed_to_now_witness :
    (putNote ⟨[⟨1, .str "a", .str "b", 0, 0⟩], 2⟩ (some ((1 : Nat) : Int)) none none 9).1
        = ⟨204, .empty⟩
    ∧ ∃ m : Note,
        getNote (putNote ⟨[⟨1, .str "a", .str "b", 0, 0⟩], 2⟩ (some ((1 : Nat) : Int)) none none 9).2
            (some ((1 : Nat) : Int)) = ⟨200, .note m⟩
        ∧ m.changed = 9 :=
  update_sets_changed_to_now ⟨[⟨1, .str "a", .str "b", 0, 0⟩], 2⟩ 1 ⟨1, .str "a", .str "b", 0, 0⟩ none none 9
    (by decide)

/-- C8: in every store reached from the initial one that holds a note of id `i`,
`DELETE /note/:id` for `i` answers `204` and `GET /note/:id` for `i` then
answers `404` "Note not found". -/
theorem get_after_delete_not_found (rs : List Request) (i : Nat)
    (hmem : ∃ n ∈ (run Store.initial rs).notes, n.id = i) :
    (deleteNote (run Store.initial rs) (some (i : Int))).1 = ⟨204, .empty⟩
    ∧ getNote (deleteNote (run Store.initial rs) (some (i : Int))).2 (some (i : Int))
        = ⟨404, .message "Note not found"⟩ := by
  obtain ⟨n, hn, hni⟩ := hmem
  have hwf := run_WF _ rs Store.initial_WF
  obtain ⟨k, hk⟩ := findIndex_isSome_of_mem (idMatches (some (i : Int))) _ n hn
    ((idMatches_some_iff i n).2 hni)
  rw [getNote_eq_miss_iff]
  unfold deleteNote
  rw [hk]
  refine ⟨rfl, ?_⟩
  rw [List.find?_eq_none]
  intro m hm hmatch
  exact eraseIdx_findIndex_no_match i _ k (WF_nodup _ hwf) hk m hm
    ((idMatches_some_iff i m).1 hmatch)

/-- Witness for C8: two notes, the first one deleted. -/
theorem get_after_delete_not_found_witness :
    (deleteNote (run Store.initial [.postNote (some (.str "a")) (some (.str "b")) 0 0,
        .postNote (some (.str "c")) (some (.str "d")) 1 1]) (some ((1 : Nat) : Int))).1 = ⟨204, .empty⟩
    ∧ getNote (deleteNote (run Store.initial [.postNote (some (.str "a")) (some (.str "b")) 0 0,
        .postNote (some (.str "c")) (some (.str "d")) 1 1]) (some ((1 : Nat) : Int))).2
        (some ((1 : Nat) : Int)) = ⟨404, .message "Note not found"⟩ :=
  get_after_delete_not_found _ 1 ⟨⟨1, .str "a", .str "b", 0, 0⟩, by decide, rfl⟩

/-- C10: `GET /note/:id` answers either `200` with a note or `404`; a note it
returns is stored and its id is the requested one; it answers `404` exactly
when no stored note has the requested id. -/
theorem get_by_id_spec (s : Store) (id : Option Int) :
    (∀ n : Note, getNote s id = ⟨200, .note n⟩ → n ∈ s.notes ∧ id = some (n.id : Int))
    ∧ (getNote s id = ⟨404, .message "Note not found"⟩
        ↔ ∀ n ∈ s.notes, id ≠ some (n.id : Int))
    ∧ ((∃ n : Note, getNote s id = ⟨200, .note n⟩)
        ∨ getNote s id = ⟨404, .message "Note not found"⟩) := by
  refine ⟨?_, ?_, ?_⟩
  · intro n h
    rw [getNote_eq_ok_iff] at h
    exact ⟨List.mem_of_find?_eq_some h, (idMatches_iff id n).1 (List.find?_some h)⟩
  · rw [getNote_eq_miss_iff, List.find?_eq_none]
    constructor
    · intro h n hn hid
      exact h n hn ((idMatches_iff id n).2 hid)
    · intro h n hn hm
      exact h n hn ((idMatches_iff id n).1 hm)
  · unfold getNote
    cases s.notes.find? (idMatches id) with
    | none => right; rfl
    | some m => left; exact ⟨m, rfl⟩

/-! ## Lookup by title and listing -/

theorem readNote_eq_ok_iff (s : Store) (title : String) (n : Note) :
    readNote s title = ⟨200, .note n⟩ ↔ s.notes.find? (titleMatches title) = some n := by
  unfold readNote
  cases h : s.notes.find? (titleMatches title) with
  | none => simp
  | some m => simp

theorem readNote_eq_miss_iff (s : Store) (title : String) :
    readNote s title = ⟨404, .message "Note not found"⟩
      ↔ s.notes.find? (titleMatches title) = none := by
  unfold readNote
  cases h : s.notes.find? (titleMatches title) with
  | none => simp
  | some m => simp

theorem titleMatches_iff (title : String) (n : Note) :
    titleMatches title n = true ↔ n.title = .str title := by
  simp [titleMatches]

/-- C11: `GET /note/read/:title` answers either `200` with a note or `404`; a
note it returns has exactly the requested title and every note stored before
it has a different title; it answers `404` exactly when no stored note has
exactly that title. -/
theorem get_by_title_spec (s : Store) (title : String) :
    (∀ n : Note, readNote s title = ⟨200, .note n⟩ →
        n.title = .str title
        ∧ ∃ before after : List Note, s.notes = before ++ n :: after
            ∧ ∀ m ∈ before, m.title ≠ .str title)
    ∧ (readNote s title = ⟨404, .message "Note not found"⟩
        ↔ ∀ n ∈ s.notes, n.title ≠ .str title)
    ∧ ((∃ n : Note, readNote s title = ⟨200, .note n⟩)
        ∨ readNote s title = ⟨404, .message "Note not found"⟩) := by
  refine ⟨?_, ?_, ?_⟩
  · intro n h
    rw [readNote_eq_ok_iff, List.find?_eq_some] at h
    obtain ⟨hn, before, after, hsplit, hbefore⟩ := h
    refine ⟨(titleMatches_iff title n).1 hn, before, after, hsplit, ?_⟩
    intro m hm hmt
    have := hbefore m hm
    rw [(titleMatches_iff title m).2 hmt] at this
    exact absurd this (by decide)
  · rw [readNote_eq_miss_iff, List.find?_eq_none]
    constructor
    · intro h n hn ht
      exact h n hn ((titleMatches_iff title n).2 ht)
    · intro h n hn hm
      exact h n hn ((titleMatches_iff title n).1 hm)
  · unfold readNote
    cases s.notes.find? (titleMatches title) with
    | none => right; rfl
    | some m => left; exact ⟨m, rfl⟩

/-- C12: `GET /notes` answers `404` exactly when the store holds no note and
otherwise `200` with the whole collection; after one `POST /note/` with
non-empty string title and content on the initial store it returns exactly one note,
carrying that title and content. -/
theorem list_all_spec (s : Store) (title content : String) (t1 t2 : Int)
    (ht : title ≠ "") (hc : content ≠ "") :
    ((listNotes s).status = 404 ↔ s.notes.length = 0)
    ∧ (listNotes s = ⟨404, .message "No notes found"⟩ ∨ listNotes s = ⟨200, .notes s.notes⟩)
    ∧ (postNote Store.initial (some (.str title)) (some (.str content)) t1 t2).1.status = 201
    ∧ ∃ n : Note,
        listNotes (postNote Store.initial (some (.str title)) (some (.str content)) t1 t2).2
          = ⟨200, .notes [n]⟩
        ∧ n.title = .str title ∧ n.content = .str content := by
  refine ⟨?_, ?_, ?_, ?_⟩
  · unfold listNotes
    split_ifs with h <;> simp [h]
  · unfold listNotes
    split_ifs with h
    · left; rfl
    · right; rfl
  · rw [postNote_of_nonempty _ _ _ _ _ ht hc]
  · rw [postNote_of_nonempty _ _ _ _ _ ht hc]
    exact ⟨⟨1, .str title, .str content, t1, t2⟩, rfl, rfl, rfl⟩

/-- Witness for C12: listing a two-note store and listing after one create. -/
theorem list_all_spec_witness :
    ((listNotes ⟨[⟨1, .str "a", .str "b", 0, 0⟩, ⟨2, .str "c", .str "d", 1, 1⟩], 3⟩).status
          = 404
        ↔ ([⟨1, .str "a", .str "b", 0, 0⟩, ⟨2, .str "c", .str "d", 1, 1⟩] : List Note).length
          = 0)
    ∧ (listNotes ⟨[⟨1, .str "a", .str "b", 0, 0⟩, ⟨2, .str "c", .str "d", 1, 1⟩], 3⟩
          = ⟨404, .message "No notes found"⟩
        ∨ listNotes ⟨[⟨1, .str "a", .str "b", 0, 0⟩, ⟨2, .str "c", .str "d", 1, 1⟩], 3⟩
          = ⟨200, .notes [⟨1, .str "a", .str "b", 0, 0⟩, ⟨2, .str "c", .str "d", 1, 1⟩]⟩)
    ∧ (postNote Store.initial (some (.str "Groceries")) (some (.str "Milk,eggs"))
        3 3).1.status = 201
    ∧ ∃ n : Note,
        listNotes (postNote Store.initial (some (.str "Groceries")) (some (.str "Milk,eggs"))
          3 3).2 = ⟨200, .notes [n]⟩
        ∧ n.title = .str "Groceries" ∧ n.content = .str "Milk,eggs" :=
  list_all_spec ⟨[⟨1, .str "a", .str "b", 0, 0⟩, ⟨2, .str "c", .str "d", 1, 1⟩], 3⟩
    "Groceries" "Milk,eggs" 3 3 (by decide) (by decide)

/-- C13: in every store reached from the initial one the ids along the
collection are strictly increasing and all below the id counter; `PUT` leaves
the sequence of ids as it was and `DELETE` leaves a subsequence of the
collection, so neither reorders the notes that remain. -/
theorem collection_in_creation_order (rs : List Request) :
    ((run Store.initial rs).notes.map Note.id).Pairwise (· < ·)
    ∧ (∀ n ∈ (run Store.initial rs).notes, n.id < (run Store.initial rs).nextId)
    ∧ (∀ (id : Option Int) (title content : Option JVal) (now : Int),
        (putNote (run Store.initial rs) id title content now).2.notes.map Note.id
          = (run Store.initial rs).notes.map Note.id)
    ∧ (∀ id : Option Int,
        (deleteNote (run Store.initial rs) id).2.notes.Sublist (run Store.initial rs).notes) := by
  have hwf := run_WF _ rs Store.initial_WF
  refine ⟨hwf.1, fun n hn => hwf.2 n.id (List.mem_map_of_mem _ hn), ?_, ?_⟩
  · intro id title content now
    unfold putNote
    split
    · rfl
    · exact map_id_modifyFirst _ _ (applyPut_id title content now) _
  · intro id
    unfold deleteNote
    split
    · exact List.Sublist.refl _
    · exact List.eraseIdx_sublist _ _

/-! ## Field and timestamp invariants -/

theorem mem_modifyFirst (p : Note → Bool) (f : Note → Note) (l : List Note) (m : Note)
    (hm : m ∈ modifyFirst p f l) : m ∈ l ∨ ∃ n ∈ l, m = f n := by
  induction l with
  | nil => simp [modifyFirst] at hm
  | cons a as ih =>
    unfold modifyFirst at hm
    by_cases h : p a = true
    · simp only [h, if_true, List.mem_cons] at hm
      rcases hm with rfl | hm
      · exact Or.inr ⟨a, List.mem_cons_self _ _, rfl⟩
      · exact Or.inl (List.mem_cons_of_mem _ hm)
    · simp only [h, Bool.false_eq_true, if_false, List.mem_cons] at hm
      rcases hm with rfl | hm
      · exact Or.inl (List.mem_cons_self _ _)
      · rcases ih hm with h1 | ⟨n, hn, rfl⟩
        · exact Or.inl (List.mem_cons_of_mem _ h1)
        · exact Or.inr ⟨n, List.mem_cons_of_mem _ hn, rfl⟩

theorem truthy_getD (v : Option JVal) (h : truthy v = true) :
    truthy (some (v.getD .null)) = true := by
  cases v with
  | none => simp [truthy] at h
  | some x => simpa using h

theorem notFalsy_of_truthy (x : JVal) (h : truthy (some x) = true) : x.NotFalsy := by
  have hne : ¬ truthy (some x) = false := by simp [h]
  rw [truthy_eq_false_iff] at hne
  simp only [not_or, Option.some.injEq] at hne
  exact ⟨hne.2.1, hne.2.2.1, hne.2.2.2.1, hne.2.2.2.2⟩

theorem applyPut_fields_truthy (title content : Option JVal) (now : Int) (n : Note)
    (h : truthy (some n.title) = true ∧ truthy (some n.content) = true) :
    truthy (some (applyPut title content now n).title) = true
      ∧ truthy (some (applyPut title content now n).content) = true := by
  unfold applyPut
  by_cases h1 : truthy title = true <;> by_cases h2 : truthy content = true
  · simpa [h1, h2] using ⟨truthy_getD title h1, truthy_getD content h2⟩
  · simpa [h1, h2] using ⟨truthy_getD title h1, h.2⟩
  · simpa [h1, h2] using ⟨h.1, truthy_getD content h2⟩
  · simpa [h1, h2] using h

theorem step_fields_truthy (s : Store) (r : Request)
    (h : ∀ n ∈ s.notes, truthy (some n.title) = true ∧ truthy (some n.content) = true) :
    ∀ n ∈ (step s r).2.notes,
      truthy (some n.title) = true ∧ truthy (some n.content) = true := by
  cases r with
  | listNotes => exact h
  | getNote id => exact h
  | readNote title => exact h
  | postNote title content t1 t2 =>
    simp only [step, postNote]
    by_cases hg : (!truthy title || !truthy content) = true
    · simpa [hg] using h
    · simp only [hg, Bool.false_eq_true, if_false]
      simp only [Bool.or_eq_true, Bool.not_eq_true', not_or, Bool.not_eq_false] at hg
      intro n hn
      rw [List.mem_append, List.mem_singleton] at hn
      rcases hn with hn | rfl
      · exact h n hn
      · exact ⟨truthy_getD title hg.1, truthy_getD content hg.2⟩
  | deleteNote id =>
    simp only [step, deleteNote]
    cases findIndex (idMatches id) s.notes with
    | none => exact h
    | some k => exact fun n hn => h n (List.eraseIdx_subset _ _ hn)
  | putNote id title content now =>
    simp only [step, putNote]
    cases s.notes.find? (idMatches id) with
    | none => exact h
    | some found =>
      intro n hn
      rcases mem_modifyFirst _ _ _ _ hn with h1 | ⟨m, hm, rfl⟩
      · exact h n h1
      · exact applyPut_fields_truthy title content now m (h m hm)

theorem run_fields_truthy (s : Store) (rs : List Request)
    (h : ∀ n ∈ s.notes, truthy (some n.title) = true ∧ truthy (some n.content) = true) :
    ∀ n ∈ (run s rs).notes,
      truthy (some n.title) = true ∧ truthy (some n.content) = true := by
  induction rs generalizing s with
  | nil => exact h
  | cons r rs ih => exact ih _ (step_fields_truthy s r h)

/-- C14 (as the code has it): in every store reached from the initial one by
any requests, whatever JSON values their title and content carry, the title and
the content of every stored note are truthy: never `null`, `false`, the number
`0` or the empty string.  This still holds after one more `PUT /note/:id` with
any title and content, so an update that supplies the empty string (or any
other falsy value) never stores it. -/
theorem stored_fields_not_falsy (rs : List Request) :
    (∀ n ∈ (run Store.initial rs).notes, n.title.NotFalsy ∧ n.content.NotFalsy)
    ∧ (∀ (id : Option Int) (title content : Option JVal) (now : Int),
        ∀ n ∈ (putNote (run Store.initial rs) id title content now).2.notes,
          n.title.NotFalsy ∧ n.content.NotFalsy) := by
  have h0 : ∀ n ∈ Store.initial.notes,
      truthy (some n.title) = true ∧ truthy (some n.content) = true := by
    simp [Store.initial]
  have h := run_fields_truthy Store.initial rs h0
  refine ⟨fun n hn => ?_, fun id title content now n hn => ?_⟩
  · exact ⟨notFalsy_of_truthy _ (h n hn).1, notFalsy_of_truthy _ (h n hn).2⟩
  · have h2 := step_fields_truthy _ (.putNote id title content now) h n hn
    exact ⟨notFalsy_of_truthy _ h2.1, notFalsy_of_truthy _ h2.2⟩

/-- Counterexample to C14 as stated: `POST /note/` with the empty array as
title and the empty object as content stores them, and `PUT /note/:id` with the
empty array as title stores it over a non-empty string title. -/
theorem empty_array_title_stored :
    (run Store.initial [.postNote (some (.arr .nil)) (some (.obj .nil)) 0 0]).notes
        = [⟨1, .arr .nil, .obj .nil, 0, 0⟩]
    ∧ putNote (run Store.initial [.postNote (some (.str "a")) (some (.str "b")) 0 0])
        (some 1) (some (.arr .nil)) none 5
        = (⟨204, .empty⟩, ⟨[⟨1, .arr .nil, .str "b", 0, 5⟩], 2⟩) := by
  decide

theorem clock_invariant (s : Store) (rs : List Request)
    (h1 : ∀ n ∈ s.notes, n.created ≤ n.changed)
    (h2 : ∀ n ∈ s.notes, ∀ t ∈ clockLog s rs, n.changed ≤ t)
    (h3 : (clockLog s rs).Pairwise (· ≤ ·)) :
    ∀ n ∈ (run s rs).notes, n.created ≤ n.changed := by
  induction rs generalizing s with
  | nil => exact h1
  | cons r rs ih =>
    simp only [clockLog, List.pairwise_append, List.mem_append] at h2 h3
    obtain ⟨h3a, h3b, h3c⟩ := h3
    refine ih (step s r).2 ?_ ?_ h3b
    · cases r with
      | listNotes => exact h1
      | getNote id => exact h1
      | readNote title => exact h1
      | postNote title content t1 t2 =>
        simp only [step, postNote]
        by_cases hg : (!truthy title || !truthy content) = true
        · simpa [hg] using h1
        · simp only [hg, Bool.false_eq_true, if_false]
          simp only [readingsTaken, hg, Bool.false_eq_true, if_false, List.pairwise_cons,
            List.mem_singleton, forall_eq] at h3a
          intro n hn
          rw [List.mem_append, List.mem_singleton] at hn
          rcases hn with hn | rfl
          · exact h1 n hn
          · exact h3a.1
      | deleteNote id =>
        simp only [step, deleteNote]
        cases findIndex (idMatches id) s.notes with
        | none => exact h1
        | some k => exact fun n hn => h1 n (List.eraseIdx_subset _ _ hn)
      | putNote id title content now =>
        simp only [step, putNote]
        cases hf : s.notes.find? (idMatches id) with
        | none => exact h1
        | some found =>
          intro n hn
          rcases mem_modifyFirst _ _ _ _ hn with hn | ⟨m, hm, rfl⟩
          · exact h1 n hn
          · have hnow : m.changed ≤ now :=
              h2 m hm now (Or.inl (by simp [readingsTaken, hf]))
            have hcr : (applyPut title content now m).created = m.created := by
              unfold applyPut
              split_ifs <;> rfl
            rw [hcr, applyPut_changed]
            exact le_trans (h1 m hm) hnow
    · intro n hn t ht
      cases r with
      | listNotes => exact h2 n hn t (Or.inr ht)
      | getNote id => exact h2 n hn t (Or.inr ht)
      | readNote title => exact h2 n hn t (Or.inr ht)
      | postNote title content t1 t2 =>
        simp only [step, postNote] at hn ht
        by_cases hg : (!truthy title || !truthy content) = true
        · simp only [hg, if_true] at hn ht
          exact h2 n hn t (Or.inr (by simpa [step, postNote, hg] using ht))
        · simp only [hg, Bool.false_eq_true, if_false] at hn ht
          rw [List.mem_append, List.mem_singleton] at hn
          rcases hn with hn | rfl
          · exact h2 n hn t (Or.inr (by simpa [step, postNote, hg] using ht))
          · exact h3c t2 (by simp [readingsTaken, hg]) t
              (by simpa [step, postNote, hg] using ht)
      | deleteNote id =>
        simp only [step, deleteNote] at hn ht
        cases hk : findIndex (idMatches id) s.notes with
        | none =>
          simp only [hk] at hn ht
          exact h2 n hn t (Or.inr (by simpa [step, deleteNote, hk] using ht))
        | some k =>
          simp only [hk] at hn ht
          exact h2 n (List.eraseIdx_subset _ _ hn) t
            (Or.inr (by simpa [step, deleteNote, hk] using ht))
      | putNote id title content now =>
        simp only [step, putNote] at hn ht
        cases hf : s.notes.find? (idMatches id) with
        | none =>
          simp only [hf] at hn ht
          exact h2 n hn t (Or.inr (by simpa [step, putNote, hf] using ht))
        | some found =>
          simp only [hf] at hn ht
          rcases mem_modifyFirst _ _ _ _ hn with hn | ⟨m, hm, rfl⟩
          · exact h2 n hn t (Or.inr (by simpa [step, putNote, hf] using ht))
          · rw [applyPut_changed]
            exact h3c now (by simp [readingsTaken, hf]) t
              (by simpa [step, putNote, hf] using ht)

/-- C15: when the clock readings taken while the requests are served from the
initial store never decrease, every note of the resulting store has
`changed >= created`. -/
theorem changed_ge_created (rs : List Request)
    (hclock : (clockLog Store.initial rs).Pairwise (· ≤ ·)) :
    ∀ n ∈ (run Store.initial rs).notes, n.created ≤ n.changed :=
  clock_invariant Store.initial rs (by simp [Store.initial]) (by simp [Store.initial]) hclock

/-- Witness for C15: a create at readings 3, 4 followed by an update at 4. -/
theorem changed_ge_created_witness :
    (clockLog Store.initial [.postNote (some (.str "a")) (some (.str "b")) 3 4,
        .putNote (some 1) none (some (.str "c")) 4]).Pairwise (· ≤ ·)
    ∧ (⟨1, .str "a", .str "c", 3, 4⟩ : Note) ∈ (run Store.initial
        [.postNote (some (.str "a")) (some (.str "b")) 3 4, .putNote (some 1) none (some (.str "c")) 4]).notes
    ∧ (⟨1, .str "a", .str "c", 3, 4⟩ : Note).created ≤ (⟨1, .str "a", .str "c", 3, 4⟩ : Note).changed :=
  ⟨by decide, by decide,
    changed_ge_created
      [.postNote (some (.str "a")) (some (.str "b")) 3 4, .putNote (some 1) none (some (.str "c")) 4]
      (by decide) ⟨1, .str "a", .str "c", 3, 4⟩ (by decide)⟩

/-! ## Path parameters, status codes and frame conditions -/

theorem getNote_nan (s : Store) : getNote s none = ⟨404, .message "Note not found"⟩ := by
  rw [getNote_eq_miss_iff, List.find?_eq_none]
  intro n _
  simp [idMatches]

theorem putNote_nan (s : Store) (title content : Option JVal) (now : Int) :
    putNote s none title content now = (⟨409, .message "Note not found"⟩, s) := by
  have h : s.notes.find? (idMatches none) = none := by
    rw [List.find?_eq_none]
    intro n _
    simp [idMatches]
  unfold putNote
  rw [h]

theorem deleteNote_nan (s : Store) :
    deleteNote s none = (⟨409, .message "Note not found"⟩, s) := by
  have h : findIndex (idMatches none) s.notes = none := by
    rw [findIndex_eq_none]
    intro n _
    simp [idMatches]
  unfold deleteNote
  rw [h]

/-- C16 (as the code has it): when `parseInt` yields `NaN` for the `:id` path
parameter, `GET /note/:id` answers `404`, and `PUT /note/:id` and
`DELETE /note/:id` answer `409` and leave the store as it was: no note is
matched, returned, modified or removed. -/
theorem nan_id_is_lookup_miss (s : Store) (param : String) (title content : Option JVal)
    (now : Int) (hnan : parseInt param = none) :
    getNote s (parseInt param) = ⟨404, .message "Note not found"⟩
    ∧ putNote s (parseInt param) title content now = (⟨409, .message "Note not found"⟩, s)
    ∧ deleteNote s (parseInt param) = (⟨409, .message "Note not found"⟩, s) := by
  rw [hnan]
  exact ⟨getNote_nan s, putNote_nan s title content now, deleteNote_nan s⟩

/-- Witness for C16: the parameter `abc` on a one-note store. -/
theorem nan_id_is_lookup_miss_witness :
    getNote ⟨[⟨1, .str "a", .str "b", 0, 0⟩], 2⟩ (parseInt "abc") = ⟨404, .message "Note not found"⟩
    ∧ putNote ⟨[⟨1, .str "a", .str "b", 0, 0⟩], 2⟩ (parseInt "abc") (some (.str "z")) none 9
        = (⟨409, .message "Note not found"⟩, ⟨[⟨1, .str "a", .str "b", 0, 0⟩], 2⟩)
    ∧ deleteNote ⟨[⟨1, .str "a", .str "b", 0, 0⟩], 2⟩ (parseInt "abc")
        = (⟨409, .message "Note not found"⟩, ⟨[⟨1, .str "a", .str "b", 0, 0⟩], 2⟩) :=
  nan_id_is_lookup_miss ⟨[⟨1, .str "a", .str "b", 0, 0⟩], 2⟩ "abc" (some (.str "z")) none 9 (by decide)

/-- Counterexample to C16 as stated: the parameter `1abc` is not a decimal
integer literal, yet `parseInt` reads its leading digit, so `GET` returns note
1, `PUT` modifies it and `DELETE` removes it. -/
theorem numeric_prefix_id_matches :
    isDecimalLiteral "1abc" = false
    ∧ parseInt "1abc" = some 1
    ∧ getNote (run Store.initial [.postNote (some (.str "a")) (some (.str "b")) 0 0]) (parseInt "1abc")
        = ⟨200, .note ⟨1, .str "a", .str "b", 0, 0⟩⟩
    ∧ putNote (run Store.initial [.postNote (some (.str "a")) (some (.str "b")) 0 0]) (parseInt "1abc")
        (some (.str "z")) none 9 = (⟨204, .empty⟩, ⟨[⟨1, .str "z", .str "b", 0, 9⟩], 2⟩)
    ∧ deleteNote (run Store.initial [.postNote (some (.str "a")) (some (.str "b")) 0 0]) (parseInt "1abc")
        = (⟨204, .empty⟩, ⟨[], 2⟩) := by
  decide

theorem find?_idMatches_eq_none (s : Store) (id : Option Int) :
    s.notes.find? (idMatches id) = none ↔ ∀ n ∈ s.notes, id ≠ some (n.id : Int) := by
  rw [List.find?_eq_none]
  constructor
  · intro h n hn hid
    exact h n hn ((idMatches_iff id n).2 hid)
  · intro h n hn hm
    exact h n hn ((idMatches_iff id n).1 hm)

theorem findIndex_idMatches_eq_none (s : Store) (id : Option Int) :
    findIndex (idMatches id) s.notes = none ↔ ∀ n ∈ s.notes, id ≠ some (n.id : Int) := by
  rw [findIndex_eq_none]
  constructor
  · intro h n hn hid
    have := h n hn
    rw [(idMatches_iff id n).2 hid] at this
    exact absurd this (by decide)
  · intro h n hn
    cases hm : idMatches id n with
    | false => rfl
    | true => exact absurd ((idMatches_iff id n).1 hm) (h n hn)

/-- C17: `PUT /note/:id` and `DELETE /note/:id` answer `409` exactly when no
stored note has the id, and then return the store unchanged; otherwise they
answer `204`.  The three `GET` routes answer `404` on their miss and `200`
otherwise, and `POST /note/` answers `201` or `409`. -/
theorem status_codes (s : Store) (id : Option Int) (title content : Option JVal)
    (t1 t2 now : Int) (wanted : String) :
    (((putNote s id title content now).1.status = 409
          ↔ ∀ n ∈ s.notes, id ≠ some (n.id : Int))
      ∧ ((putNote s id title content now).1.status = 409
          → (putNote s id title content now).2 = s)
      ∧ ((putNote s id title content now).1.status = 409
          ∨ (putNote s id title content now).1.status = 204))
    ∧ (((deleteNote s id).1.status = 409 ↔ ∀ n ∈ s.notes, id ≠ some (n.id : Int))
      ∧ ((deleteNote s id).1.status = 409 → (deleteNote s id).2 = s)
      ∧ ((deleteNote s id).1.status = 409 ∨ (deleteNote s id).1.status = 204))
    ∧ (((getNote s id).status = 404 ↔ ∀ n ∈ s.notes, id ≠ some (n.id : Int))
      ∧ ((getNote s id).status = 404 ∨ (getNote s id).status = 200))
    ∧ (((readNote s wanted).status = 404 ↔ ∀ n ∈ s.notes, n.title ≠ .str wanted)
      ∧ ((readNote s wanted).status = 404 ∨ (readNote s wanted).status = 200))
    ∧ (((listNotes s).status = 404 ↔ s.notes = [])
      ∧ ((listNotes s).status = 404 ∨ (listNotes s).status = 200))
    ∧ ((postNote s title content t1 t2).1.status = 409
      ∨ (postNote s title content t1 t2).1.status = 201) := by
  refine ⟨?_, ?_, ?_, ?_, ?_, ?_⟩
  · rw [← find?_idMatches_eq_none]
    unfold putNote
    cases s.notes.find? (idMatches id) <;> simp
  · rw [← findIndex_idMatches_eq_none]
    unfold deleteNote
    cases findIndex (idMatches id) s.notes <;> simp
  · rw [← find?_idMatches_eq_none]
    unfold getNote
    cases s.notes.find? (idMatches id) <;> simp
  · have h : s.notes.find? (titleMatches wanted) = none ↔ ∀ n ∈ s.notes, n.title ≠ .str wanted := by
      rw [List.find?_eq_none]
      constructor
      · intro h n hn ht
        exact h n hn ((titleMatches_iff wanted n).2 ht)
      · intro h n hn hm
        exact h n hn ((titleMatches_iff wanted n).1 hm)
    rw [← h]
    unfold readNote
    cases s.notes.find? (titleMatches wanted) <;> simp
  · unfold listNotes
    cases hl : s.notes with
    | nil => simp
    | cons a as => simp
  · unfold postNote
    split_ifs
    · left; rfl
    · right; rfl

theorem modifyFirst_split (p : Note → Bool) (f : Note → Note) (before after : List Note)
    (n : Note) (hb : ∀ m ∈ before, p m = false) (hn : p n = true) :
    modifyFirst p f (before ++ n :: after) = before ++ f n :: after := by
  induction before with
  | nil => simp [modifyFirst, hn]
  | cons a as ih =>
    have ha : p a = false := hb a (List.mem_cons_self _ _)
    have := ih (fun m hm => hb m (List.mem_cons_of_mem _ hm))
    simp [modifyFirst, ha, this]

theorem findIndex_split (p : Note → Bool) (before after : List Note) (n : Note)
    (hb : ∀ m ∈ before, p m = false) (hn : p n = true) :
    findIndex p (before ++ n :: after) = some before.length := by
  induction before with
  | nil => simp [findIndex, hn]
  | cons a as ih =>
    have ha : p a = false := hb a (List.mem_cons_self _ _)
    have := ih (fun m hm => hb m (List.mem_cons_of_mem _ hm))
    simp [findIndex, ha, this]

theorem eraseIdx_split (before after : List Note) (n : Note) :
    (before ++ n :: after).eraseIdx before.length = before ++ after := by
  induction before with
  | nil => rfl
  | cons a as ih => simp [ih]

theorem applyPut_created (title content : Option JVal) (now : Int) (n : Note) :
    (applyPut title content now n).created = n.created := by
  unfold applyPut
  split_ifs <;> rfl

/-- C18: when `GET /note/:id` finds the note `n`, `PUT /note/:id` answers `204`,
keeps the id counter, and replaces `n` at its position by a note with the same
id and the same `created`; the notes before and after it are the same notes in
the same order, so the length and the order of the collection are unchanged. -/
theorem update_frame (s : Store) (id : Option Int) (n : Note)
    (title content : Option JVal) (now : Int)
    (hget : getNote s id = ⟨200, .note n⟩) :
    (putNote s id title content now).1 = ⟨204, .empty⟩
    ∧ (putNote s id title content now).2.nextId = s.nextId
    ∧ (putNote s id title content now).2.notes.length = s.notes.length
    ∧ ∃ (before after : List Note) (m : Note),
        s.notes = before ++ n :: after
        ∧ (∀ x ∈ before, idMatches id x = false)
        ∧ (putNote s id title content now).2.notes = before ++ m :: after
        ∧ m.id = n.id ∧ m.created = n.created := by
  rw [getNote_eq_ok_iff] at hget
  obtain ⟨hn, before, after, hsplit, hbefore⟩ := List.find?_eq_some.1 hget
  have hb : ∀ x ∈ before, idMatches id x = false := by
    intro x hx
    simpa using hbefore x hx
  have hnotes : (putNote s id title content now).2.notes
      = before ++ applyPut title content now n :: after := by
    unfold putNote
    rw [hget]
    simp only
    rw [hsplit, modifyFirst_split _ _ before after n hb hn]
  refine ⟨?_, ?_, ?_, before, after, applyPut title content now n, hsplit, hb, hnotes,
    applyPut_id title content now n, applyPut_created title content now n⟩
  · unfold putNote
    rw [hget]
  · unfold putNote
    rw [hget]
  · rw [hnotes, hsplit]
    simp

/-- Witness for C18: updating the middle note of three. -/
theorem update_frame_witness :
    (putNote ⟨[⟨1, .str "a", .str "b", 0, 0⟩, ⟨2, .str "c", .str "d", 1, 1⟩, ⟨4, .str "e", .str "f", 2, 2⟩], 5⟩
        (some 2) (some (.str "t")) none 9).1 = ⟨204, .empty⟩
    ∧ (putNote ⟨[⟨1, .str "a", .str "b", 0, 0⟩, ⟨2, .str "c", .str "d", 1, 1⟩, ⟨4, .str "e", .str "f", 2, 2⟩], 5⟩
        (some 2) (some (.str "t")) none 9).2.nextId = 5
    ∧ (putNote ⟨[⟨1, .str "a", .str "b", 0, 0⟩, ⟨2, .str "c", .str "d", 1, 1⟩, ⟨4, .str "e", .str "f", 2, 2⟩], 5⟩
        (some 2) (some (.str "t")) none 9).2.notes.length = 3
    ∧ ∃ (before after : List Note) (m : Note),
        [⟨1, .str "a", .str "b", 0, 0⟩, ⟨2, .str "c", .str "d", 1, 1⟩, ⟨4, .str "e", .str "f", 2, 2⟩]
          = before ++ (⟨2, .str "c", .str "d", 1, 1⟩ : Note) :: after
        ∧ (∀ x ∈ before, idMatches (some 2) x = false)
        ∧ (putNote ⟨[⟨1, .str "a", .str "b", 0, 0⟩, ⟨2, .str "c", .str "d", 1, 1⟩, ⟨4, .str "e", .str "f", 2, 2⟩], 5⟩
            (some 2) (some (.str "t")) none 9).2.notes = before ++ m :: after
        ∧ m.id = 2 ∧ m.created = 1 :=
  update_frame ⟨[⟨1, .str "a", .str "b", 0, 0⟩, ⟨2, .str "c", .str "d", 1, 1⟩, ⟨4, .str "e", .str "f", 2, 2⟩], 5⟩
    (some 2) ⟨2, .str "c", .str "d", 1, 1⟩ (some (.str "t")) none 9 (by decide)

/-- C19: in every store reached from the initial one that holds a note of id
`i`, `DELETE /note/:id` for `i` answers `204` and returns the collection with
that one note taken out: the notes before and after it stay, unmodified and in
order, none of them has id `i`, the length drops by one and the id counter is
unchanged. -/
theorem delete_frame (rs : List Request) (i : Nat)
    (hmem : ∃ n ∈ (run Store.initial rs).notes, n.id = i) :
    ∃ (before after : List Note) (n : Note),
      (run Store.initial rs).notes = before ++ n :: after
      ∧ n.id = i
      ∧ deleteNote (run Store.initial rs) (some (i : Int))
          = (⟨204, .empty⟩, ⟨before ++ after, (run Store.initial rs).nextId⟩)
      ∧ (∀ m ∈ before ++ after, m.id ≠ i)
      ∧ (before ++ after).length + 1 = (run Store.initial rs).notes.length := by
  obtain ⟨x, hx, hxi⟩ := hmem
  have hwf := run_WF _ rs Store.initial_WF
  cases hfind : (run Store.initial rs).notes.find? (idMatches (some (i : Int))) with
  | none =>
    rw [List.find?_eq_none] at hfind
    exact absurd ((idMatches_some_iff i x).2 hxi) (hfind x hx)
  | some n =>
    obtain ⟨hn, before, after, hsplit, hbefore⟩ := List.find?_eq_some.1 hfind
    have hb : ∀ m ∈ before, idMatches (some (i : Int)) m = false := by
      intro m hm
      simpa using hbefore m hm
    have hk : findIndex (idMatches (some (i : Int))) (run Store.initial rs).notes
        = some before.length := by
      rw [hsplit]
      exact findIndex_split _ before after n hb hn
    have herase : (run Store.initial rs).notes.eraseIdx before.length = before ++ after := by
      rw [hsplit]
      exact eraseIdx_split before after n
    refine ⟨before, after, n, hsplit, (idMatches_some_iff i n).1 hn, ?_, ?_, ?_⟩
    · unfold deleteNote
      rw [hk]
      simp only [herase]
    · intro m hm
      rw [← herase] at hm
      exact eraseIdx_findIndex_no_match i _ _ (WF_nodup _ hwf) hk m hm
    · rw [hsplit]
      simp
      omega

/-- Witness for C19: three notes, the second one deleted. -/
theorem delete_frame_witness :
    ∃ (before after : List Note) (n : Note),
      (run Store.initial [.postNote (some (.str "a")) (some (.str "b")) 0 0,
          .postNote (some (.str "c")) (some (.str "d")) 1 1, .postNote (some (.str "e")) (some (.str "f")) 2 2]).notes
        = before ++ n :: after
      ∧ n.id = 2
      ∧ deleteNote (run Store.initial [.postNote (some (.str "a")) (some (.str "b")) 0 0,
          .postNote (some (.str "c")) (some (.str "d")) 1 1, .postNote (some (.str "e")) (some (.str "f")) 2 2])
          (some ((2 : Nat) : Int))
          = (⟨204, .empty⟩, ⟨before ++ after, (run Store.initial
              [.postNote (some (.str "a")) (some (.str "b")) 0 0, .postNote (some (.str "c")) (some (.str "d")) 1 1,
                .postNote (some (.str "e")) (some (.str "f")) 2 2]).nextId⟩)
      ∧ (∀ m ∈ before ++ after, m.id ≠ 2)
      ∧ (before ++ after).length + 1 = (run Store.initial
          [.postNote (some (.str "a")) (some (.str "b")) 0 0, .postNote (some (.str "c")) (some (.str "d")) 1 1,
            .postNote (some (.str "e")) (some (.str "f")) 2 2]).notes.length :=
  delete_frame _ 2 ⟨⟨2, .str "c", .str "d", 1, 1⟩, by decide, rfl⟩

end NoteServer
